import Mathlib

/-!
Shallow embedding of `block_stream_service.py` (class `BlockStreamingService`):
the provider pool, the `_switch_provider` rotation, the `_log_block` emission
path, the `run` initialization prologue and one iteration of the polling loop.
Machine integers in the source are unbounded Python ints, so block numbers and
times are modelled as `Int`; wall-clock reads within one cycle are collapsed to
a single `now` supplied by the environment.
-/

namespace BlockStream

/-- A transaction entry of `block["transactions"]`: either a `HexBytes` value
(whose `.hex()` renders a string) or an already-rendered string. -/
inductive Tx where
  | hexBytes (h : String)
  | plain (s : String)
deriving DecidableEq, Repr

/-- Rendering of one transaction entry: `tx.hex()` for `HexBytes`, identity
for a string (the source leaves non-`HexBytes` lists unchanged). -/
def Tx.render : Tx → String
  | .hexBytes h => h
  | .plain s => s

/-- A block as returned by `web3.eth.get_block`: the fields `_log_block`
reads (`number`, `timestamp`, `transactions`). -/
structure Block where
  number : Int
  timestamp : Int
  transactions : List Tx
deriving DecidableEq, Repr

/-- The structured record `_log_block` serializes to the log sink. -/
structure Emitted where
  block_number : Int
  timestamp : Int
  transactions : List String
  provider : String
deriving DecidableEq, Repr

/-- The exception `_log_block` can raise: `txs[0]` on an empty list. -/
inductive LogError where
  | indexError
deriving DecidableEq, Repr

/-- `_log_block(block, provider_name)`: reads `block["transactions"]` and
evaluates `txs[0]` unguarded — on an empty list this raises `IndexError`;
otherwise it converts the entries and logs the structured block record. -/
def logBlock (block : Block) (providerName : String) : Except LogError Emitted :=
  match block.transactions with
  | [] => .error .indexError
  | _ :: _ =>
      .ok { block_number := block.number
          , timestamp := block.timestamp
          , transactions := block.transactions.map Tx.render
          , provider := providerName }

/-- The mutable state of a running `BlockStreamingService`: the provider
names (each entry of `self.providers` carries a `name` and a client; only the
name is observable in our model, the client is addressed by its index through
the environment), the current index, the cursor and the configuration. -/
structure ServiceState where
  names : List String
  currentProviderIndex : Nat
  lastBlock : Int
  lastBlockTime : Int
  pollInterval : Int
  blockDelayThreshold : Int
deriving DecidableEq, Repr

/-- `_switch_provider()`: advances `current_provider_index` to
`(old_index + 1) % len(self.providers)` and logs a warning. No other field
is touched. -/
def ServiceState.switchProvider (s : ServiceState) : ServiceState :=
  { s with currentProviderIndex := (s.currentProviderIndex + 1) % s.names.length }

/-- The suspension performed by `_switch_provider()`: its body contains no
`time.sleep` call (the source comment even notes backoff as unimplemented:
"ideally implement backoff to avoid rapid flips"), so the duration is zero. -/
def ServiceState.switchProviderSleep (_s : ServiceState) : Int := 0

/-- The environment one polling cycle runs against: the wall clock and, for
each provider index, the outcome of `web3.eth.block_number` and of
`web3.eth.get_block(n)` (an error, `None`, or a block). -/
structure Env where
  now : Int
  latest : Nat → Except Unit Int
  blockAt : Nat → Int → Except Unit (Option Block)

/-- The outcome of one iteration of the `while True:` loop: the state after
the iteration, the records logged during it, and — when `_log_block` raised —
the uncaught exception that crashes `run`. -/
structure CycleResult where
  state : ServiceState
  emitted : List Emitted
  crashed : Option LogError
deriving DecidableEq, Repr

/-- The catch-up `for next_block_num in range(last_block + 1, latest + 1)`
loop, with `fuel` remaining numbers and `n` the next one: a `get_block`
exception or a `None` result switches provider and breaks; a successful
fetch is logged (an `IndexError` there propagates out of `run`), then
`last_block`/`last_block_time` advance and the loop continues. -/
def catchUp (env : Env) (idx : Nat) (pname : String) :
    Nat → Int → ServiceState → CycleResult
  | 0, _, s => ⟨s, [], none⟩
  | fuel + 1, n, s =>
    match env.blockAt idx n with
    | .error _ => ⟨s.switchProvider, [], none⟩
    | .ok none => ⟨s.switchProvider, [], none⟩
    | .ok (some b) =>
      match logBlock b pname with
      | .error e => ⟨s, [], some e⟩
      | .ok em =>
        let r := catchUp env idx pname fuel (n + 1)
          { s with lastBlock := n, lastBlockTime := env.now }
        ⟨r.state, em :: r.emitted, r.crashed⟩

/-- One iteration of the polling loop of `run`: fetch the latest block number
from the active provider (an exception switches provider and continues);
if new blocks arrived, run the catch-up loop; otherwise, if no new block
appeared for at least `block_delay_threshold`, switch provider. -/
def cycle (env : Env) (s : ServiceState) : CycleResult :=
  let idx := s.currentProviderIndex
  let pname := s.names.getD idx "Unknown"
  match env.latest idx with
  | .error _ => ⟨s.switchProvider, [], none⟩
  | .ok latest =>
    if s.lastBlock < latest then
      catchUp env idx pname (latest - s.lastBlock).toNat (s.lastBlock + 1) s
    else if s.blockDelayThreshold ≤ env.now - s.lastBlockTime then
      ⟨s.switchProvider, [], none⟩
    else
      ⟨s, [], none⟩

/-- Several consecutive iterations of the polling loop, one environment per
iteration; an uncaught `_log_block` exception stops the loop. -/
def runCycles : List Env → ServiceState → CycleResult
  | [], s => ⟨s, [], none⟩
  | env :: envs, s =>
    let r := cycle env s
    match r.crashed with
    | some e => ⟨r.state, r.emitted, some e⟩
    | none =>
      let r2 := runCycles envs r.state
      ⟨r2.state, r.emitted ++ r2.emitted, r2.crashed⟩

/-- A provider specification as accepted by `__init__`: a URL string, a dict
(with optional `name` and either a `web3` object or a `url`), or a ready
client object (with an optional `name` attribute). -/
inductive ProviderSpec where
  | url (u : String)
  | dict (name : Option String) (url : Option String)
  | web3Obj (name : Option String)
deriving DecidableEq, Repr

/-- The display name `__init__` assigns to the `idx`-th specification
(0-based): the given name when present, else `Provider{idx+1}`. -/
def specName (idx : Nat) : ProviderSpec → String
  | .url _ => "Provider" ++ toString (idx + 1)
  | .dict n _ => n.getD ("Provider" ++ toString (idx + 1))
  | .web3Obj n => n.getD ("Provider" ++ toString (idx + 1))

/-- The state `__init__` leaves behind: cursor fields are still `None`. -/
structure ConstructedService where
  names : List String
  currentProviderIndex : Nat
  lastBlock : Option Int
  lastBlockTime : Option Int
  pollInterval : Int
  blockDelayThreshold : Int
deriving DecidableEq, Repr

/-- `__init__(providers, poll_interval, block_delay_threshold)`: normalizes
every specification into a `{name, web3}` entry — issuing no RPC call to any
of them — and raises `ValueError` exactly when the resulting list is empty.
The current index starts at 0 and the cursor fields at `None`. -/
def initService (specs : List ProviderSpec)
    (pollInterval blockDelayThreshold : Int) : Except String ConstructedService :=
  let names := specs.enum.map fun p => specName p.1 p.2
  if names.isEmpty then
    .error "No providers configured for BlockStreamingService"
  else
    .ok ⟨names, 0, none, none, pollInterval, blockDelayThreshold⟩

/-- The prologue of `run()`: fetch the latest block number from the current
provider; on an exception, switch provider once and fetch again — this second
fetch is outside any `try`, so a second exception propagates and `run`
terminates. On success `last_block` is set to the fetched latest number and
`last_block_time` to now. -/
def initRun (env : Env) (c : ConstructedService) : Except Unit ServiceState :=
  match env.latest c.currentProviderIndex with
  | .ok latest =>
      .ok ⟨c.names, c.currentProviderIndex, latest, env.now,
           c.pollInterval, c.blockDelayThreshold⟩
  | .error _ =>
      let idx2 := (c.currentProviderIndex + 1) % c.names.length
      match env.latest idx2 with
      | .ok latest =>
          .ok ⟨c.names, idx2, latest, env.now,
               c.pollInterval, c.blockDelayThreshold⟩
      | .error e => .error e

/-- The block numbers `a, a+1, ..., a+k-1`. -/
def intsFrom (a : Int) (k : Nat) : List Int :=
  (List.range k).map fun i => a + i

/-- Follows the words of the specification (§4.1) for
`record_failure_and_rotate()`, for comparison with the repository function
`_switch_provider` it describes: a pool with per-name consecutive-failure
counters; the operation increments the counter of the active provider,
computes a backoff of `min(2 ^ failures, 300)` time units (returned as the
second component: the suspension the spec says the caller performs), then
advances the index. -/
structure SpecPool where
  names : List String
  currentIndex : Nat
  failures : String → Nat

/-- The rotation operation as the specification words it (see `SpecPool`). -/
def specRecordFailureAndRotate (p : SpecPool) : SpecPool × Int :=
  let nm := p.names.getD p.currentIndex ""
  let f := p.failures nm + 1
  (⟨p.names, (p.currentIndex + 1) % p.names.length,
    fun x => if x = nm then f else p.failures x⟩,
   min (2 ^ f) 300)

/-- `k` consecutive calls of `_switch_provider`, together with the total
suspension those calls perform. -/
def iterSwitch : Nat → ServiceState → ServiceState × Int
  | 0, s => (s, 0)
  | k + 1, s =>
    let d := s.switchProviderSleep
    let r := iterSwitch k s.switchProvider
    (r.1, d + r.2)

/-! Concrete states and environments used as inputs of counterexamples and
witnesses. -/

/-- An environment in which every provider reports latest block 5 and has no
block data. -/
def envLatest5 : Env := ⟨100, fun _ => .ok 5, fun _ _ => .ok none⟩

/-- An environment in which every call of every provider raises. -/
def envAllFail : Env := ⟨100, fun _ => .error (), fun _ _ => .error ()⟩

/-- A freshly constructed service with one provider. -/
def cOneProv : ConstructedService := ⟨["Provider1"], 0, none, none, 5, 60⟩

/-- A freshly constructed service with two providers. -/
def cTwoProv : ConstructedService := ⟨["ProviderA", "ProviderB"], 0, none, none, 5, 60⟩

/-- A running service with a single provider, cursor at block 10. -/
def sOneProv : ServiceState := ⟨["ProviderA"], 0, 10, 0, 5, 60⟩

/-- A running service with two providers, active index 0, cursor at block 10. -/
def sTwoProv : ServiceState := ⟨["ProviderA", "ProviderB"], 0, 10, 0, 5, 60⟩

/-- A spec-side pool with a single provider and a clean failure history. -/
def pOneProv : SpecPool := ⟨["ProviderA"], 0, fun _ => 0⟩

/-! ### Helper lemmas about `iterSwitch` -/

theorem iterSwitch_sleep (k : Nat) (s : ServiceState) : (iterSwitch k s).2 = 0 := by
  induction k generalizing s with
  | zero => rfl
  | succ k ih => simp [iterSwitch, ServiceState.switchProviderSleep, ih]

theorem iterSwitch_state (k : Nat) (s : ServiceState) (hk : 1 ≤ k) :
    (iterSwitch k s).1
      = { s with currentProviderIndex :=
            (s.currentProviderIndex + k) % s.names.length } := by
  induction k generalizing s with
  | zero => exact absurd hk (by decide)
  | succ k ih =>
    rcases Nat.eq_zero_or_pos k with hz | hpos
    · subst hz
      rfl
    · have h1 := ih s.switchProvider hpos
      have he : ((s.currentProviderIndex + 1) % s.names.length + k) % s.names.length
          = (s.currentProviderIndex + (k + 1)) % s.names.length := by
        rw [Nat.mod_add_mod]
        congr 1
        omega
      show (iterSwitch k s.switchProvider).1 = _
      rw [h1]
      show ({ s with currentProviderIndex :=
        ((s.currentProviderIndex + 1) % s.names.length + k) % s.names.length }
          : ServiceState) = _
      rw [he]

/-- Claim C2 counterexample: a single rotation of the source service performs
a suspension of 0 time units, while the rotation the claim describes suspends
for `min(2 ^ 1, 300) = 2` time units; the two differ. -/
theorem C2_counterexample :
    sOneProv.switchProviderSleep = 0 ∧
    (specRecordFailureAndRotate pOneProv).2 = 2 ∧
    sOneProv.switchProviderSleep ≠ (specRecordFailureAndRotate pOneProv).2 := by
  refine ⟨rfl, rfl, ?_⟩
  decide

/-- Claim C2 (amended): `_switch_provider` maintains no failure counter and
performs no backoff suspension at all: rotating away `k ≥ 1` times in a row
suspends for a total of 0 time units (not `min(2 ^ k, 300)`) and only advances
the index to `(index + k) mod pool size`. -/
theorem C2_amended (k : Nat) (s : ServiceState) (hk : 1 ≤ k) :
    (iterSwitch k s).2 = 0 ∧
    (iterSwitch k s).1
      = { s with currentProviderIndex :=
            (s.currentProviderIndex + k) % s.names.length } :=
  ⟨iterSwitch_sleep k s, iterSwitch_state k s hk⟩

/-- Witness for C2_amended at `k = 3` on the two-provider state. -/
theorem C2_amended_witness :
    (iterSwitch 3 sTwoProv).2 = 0 ∧
    (iterSwitch 3 sTwoProv).1
      = { sTwoProv with currentProviderIndex :=
            (sTwoProv.currentProviderIndex + 3) % sTwoProv.names.length } :=
  C2_amended 3 sTwoProv (by decide)

/-- Claim C3 counterexample: with the provider reporting latest block 5 and an
uninitialized cursor, the `run` prologue sets `last_block` to 5 itself, not to
`5 - 1` as the claim states. -/
theorem C3_counterexample :
    (initRun envLatest5 cOneProv).toOption.map ServiceState.lastBlock = some 5 ∧
    (5 : Int) ≠ 5 - 1 := by
  refine ⟨rfl, ?_⟩
  decide

/-- Claim C3 (amended): on the first successful fetch of the latest block
number `latest`, the `run` prologue initializes `last_block = latest` (so the
first block emitted is `latest + 1`; block `latest` itself is never emitted,
and there is no historical replay) and `last_block_time = now`. -/
theorem C3_amended (env : Env) (c : ConstructedService) (latest : Int)
    (h : env.latest c.currentProviderIndex = .ok latest) :
    initRun env c
      = .ok ⟨c.names, c.currentProviderIndex, latest, env.now,
             c.pollInterval, c.blockDelayThreshold⟩ := by
  simp [initRun, h]

/-- Witness for C3_amended on the concrete latest-5 environment. -/
theorem C3_amended_witness :
    initRun envLatest5 cOneProv = .ok ⟨["Provider1"], 0, 5, 100, 5, 60⟩ :=
  C3_amended envLatest5 cOneProv 5 rfl

/-- Claim C4 counterexample: in an environment where every provider fails its
liveness probe (every `block_number` call raises), constructing the service
from one provider specification still succeeds — `__init__` issues no probe —
whereas the claim says construction must raise a pool-exhaustion error when
every configured provider fails its probe. -/
theorem C4_counterexample :
    envAllFail.latest 0 = .error () ∧
    (initService [.url "u"] 5 60).isOk = true :=
  ⟨rfl, rfl⟩

/-- Claim C4 (amended): construction performs no liveness probe at all; it
normalizes every specification into a named entry unconditionally and raises
an error exactly when the configured list is empty, independent of provider
health. -/
theorem C4_amended (specs : List ProviderSpec) (pollI delayT : Int) :
    initService specs pollI delayT
      = (if specs.isEmpty
         then .error "No providers configured for BlockStreamingService"
         else .ok ⟨specs.enum.map fun p => specName p.1 p.2, 0, none, none,
                   pollI, delayT⟩) := by
  cases specs with
  | nil => rfl
  | cons a l => simp [initService, List.enum]

/-- Claim C5 counterexample: when both the initial provider and the provider
switched to both fail the startup fetch of the latest block number, the
second fetch is outside any `try` block, so the exception propagates and
`run` terminates: a transport-level failure that is fatal. -/
theorem C5_counterexample : initRun envAllFail cTwoProv = .error () := rfl

/-- Claim C5 (amended): inside the polling loop a failure of the latest-block
fetch is indeed never fatal — the cycle rotates the provider, emits nothing,
does not crash, and retries on the next cycle; but during the startup
prologue of `run`, a failure of the first provider followed by a failure of
the next one propagates and terminates the process (see the
counterexample). -/
theorem C5_amended (env : Env) (s : ServiceState)
    (h : env.latest s.currentProviderIndex = .error ()) :
    cycle env s = ⟨s.switchProvider, [], none⟩ := by
  simp [cycle, h]

/-- Witness for C5_amended on the all-failing environment. -/
theorem C5_amended_witness :
    cycle envAllFail sOneProv = ⟨sOneProv.switchProvider, [], none⟩ :=
  C5_amended envAllFail sOneProv rfl

/-- The block with empty transaction list that crashes `_log_block`. -/
def emptyTxBlock : Block := ⟨1, 50, []⟩

/-- An environment whose provider reports latest block 1 and returns
`emptyTxBlock` for every block request. -/
def envEmptyTx : Env := ⟨100, fun _ => .ok 1, fun _ _ => .ok (some emptyTxBlock)⟩

/-- A running one-provider service with cursor at block 0. -/
def sEmptyTx : ServiceState := ⟨["Provider1"], 0, 0, 0, 5, 60⟩

/-- Claim C10: a block whose `transactions` list is empty makes `_log_block`
evaluate `txs[0]` on an empty list — an `IndexError`; the fetch itself
succeeded, yet the polling cycle ends crashed, nothing is emitted and the
cursor does not advance. -/
theorem C10_confirmed :
    logBlock emptyTxBlock "Provider1" = .error .indexError ∧
    cycle envEmptyTx sEmptyTx = ⟨sEmptyTx, [], some .indexError⟩ := by
  constructor
  · rfl
  · rfl

/-! ### Frame lemmas about the catch-up loop and the cycle -/

theorem catchUp_frame (env : Env) (idx : Nat) (pname : String) :
    ∀ (fuel : Nat) (n : Int) (s : ServiceState),
      (catchUp env idx pname fuel n s).state.names = s.names ∧
      ((catchUp env idx pname fuel n s).state.currentProviderIndex
          = s.currentProviderIndex ∨
       (catchUp env idx pname fuel n s).state.currentProviderIndex
          = (s.currentProviderIndex + 1) % s.names.length) := by
  intro fuel
  induction fuel with
  | zero => exact fun n s => ⟨rfl, Or.inl rfl⟩
  | succ fuel ih =>
    intro n s
    rcases hb : env.blockAt idx n with e | ob
    · simp only [catchUp, hb]
      exact ⟨rfl, Or.inr rfl⟩
    · rcases ob with _ | b
      · simp only [catchUp, hb]
        exact ⟨rfl, Or.inr rfl⟩
      · rcases hlg : logBlock b pname with e | em
        · simp only [catchUp, hb, hlg]
          exact ⟨trivial, Or.inl trivial⟩
        · simp only [catchUp, hb, hlg]
          exact ih (n + 1) { s with lastBlock := n, lastBlockTime := env.now }

/-- Claim C9: `_switch_provider` changes only the current provider index,
setting it to `(old + 1) mod pool size`, while the provider list, the cursor
and the configuration are untouched (the service keeps no failure state at
all, so there is nothing else a rotation could change); within any polling
cycle the index ends as either the old index or the once-rotated one — the
cycle touches it only through a single `_switch_provider` call — and
construction sets the index to 0. -/
theorem C9_confirmed (s : ServiceState) (env : Env)
    (specs : List ProviderSpec) (pollI delayT : Int) (c : ConstructedService)
    (hc : initService specs pollI delayT = .ok c) :
    s.switchProvider.currentProviderIndex
        = (s.currentProviderIndex + 1) % s.names.length ∧
    s.switchProvider.names = s.names ∧
    s.switchProvider.lastBlock = s.lastBlock ∧
    s.switchProvider.lastBlockTime = s.lastBlockTime ∧
    s.switchProvider.pollInterval = s.pollInterval ∧
    s.switchProvider.blockDelayThreshold = s.blockDelayThreshold ∧
    ((cycle env s).state.currentProviderIndex = s.currentProviderIndex ∨
     (cycle env s).state.currentProviderIndex
        = s.switchProvider.currentProviderIndex) ∧
    c.currentProviderIndex = 0 := by
  refine ⟨rfl, rfl, rfl, rfl, rfl, rfl, ?_, ?_⟩
  · rcases hl : env.latest s.currentProviderIndex with e | latest
    · simp [cycle, hl]
    · by_cases hlt : s.lastBlock < latest
      · simp only [cycle, hl, if_pos hlt]
        exact (catchUp_frame env s.currentProviderIndex
          (s.names.getD s.currentProviderIndex "Unknown")
          (latest - s.lastBlock).toNat (s.lastBlock + 1) s).2
      · by_cases hst : s.blockDelayThreshold ≤ env.now - s.lastBlockTime
        · simp [cycle, hl, if_neg hlt, if_pos hst]
        · simp [cycle, hl, if_neg hlt, if_neg hst]
  · simp only [initService] at hc
    split at hc
    · simp at hc
    · injection hc with h
      rw [← h]

/-- Witness for C9_confirmed on concrete inputs. -/
theorem C9_witness :
    sTwoProv.switchProvider.currentProviderIndex
        = (sTwoProv.currentProviderIndex + 1) % sTwoProv.names.length ∧
    sTwoProv.switchProvider.names = sTwoProv.names ∧
    sTwoProv.switchProvider.lastBlock = sTwoProv.lastBlock ∧
    sTwoProv.switchProvider.lastBlockTime = sTwoProv.lastBlockTime ∧
    sTwoProv.switchProvider.pollInterval = sTwoProv.pollInterval ∧
    sTwoProv.switchProvider.blockDelayThreshold = sTwoProv.blockDelayThreshold ∧
    ((cycle envLatest5 sTwoProv).state.currentProviderIndex
        = sTwoProv.currentProviderIndex ∨
     (cycle envLatest5 sTwoProv).state.currentProviderIndex
        = sTwoProv.switchProvider.currentProviderIndex) ∧
    (⟨["Provider1"], 0, none, none, 5, 60⟩ : ConstructedService).currentProviderIndex = 0 :=
  C9_confirmed sTwoProv envLatest5 [.url "u"] 5 60
    ⟨["Provider1"], 0, none, none, 5, 60⟩ rfl

/-- A two-provider service that already processed block 5 at time 100. -/
def sHeld : ServiceState := ⟨["ProviderA", "ProviderB"], 0, 5, 100, 5, 60⟩

/-- An environment stuck at latest block 5 whose clock reads 200: the last
advance lies 100 > 60 time units in the past. -/
def envStall : Env := ⟨200, fun _ => .ok 5, fun _ _ => .ok none⟩

/-- An environment stuck at latest block 5 whose clock reads 120: the last
advance lies 20 < 60 time units in the past. -/
def envFresh : Env := ⟨120, fun _ => .ok 5, fun _ _ => .ok none⟩

/-- Claim C7: when the active provider reports `latest ≤ last_block` and the
time since the cursor last advanced strictly exceeds `block_delay_threshold`,
the cycle rotates the active provider — with two providers and active index 0
exactly the index changes, to 1, nothing is emitted and nothing crashes —
and when the elapsed time is strictly within the threshold the cycle leaves
the state entirely unchanged. -/
theorem C7_confirmed (env : Env) (s : ServiceState) (latest : Int)
    (hn : s.names.length = 2) (hi : s.currentProviderIndex = 0)
    (hl : env.latest 0 = .ok latest) (hle : latest ≤ s.lastBlock) :
    (s.blockDelayThreshold < env.now - s.lastBlockTime →
        cycle env s = ⟨s.switchProvider, [], none⟩ ∧
        (cycle env s).state.currentProviderIndex = 1) ∧
    (env.now - s.lastBlockTime < s.blockDelayThreshold →
        cycle env s = ⟨s, [], none⟩) := by
  have hl' : env.latest s.currentProviderIndex = .ok latest := by
    rw [hi]; exact hl
  have hlt : ¬ s.lastBlock < latest := not_lt.mpr hle
  constructor
  · intro hgt
    have hc : cycle env s = ⟨s.switchProvider, [], none⟩ := by
      simp only [cycle, hl', if_neg hlt, if_pos (le_of_lt hgt)]
    refine ⟨hc, ?_⟩
    rw [hc]
    simp [ServiceState.switchProvider, hi, hn]
  · intro hin
    have hst : ¬ s.blockDelayThreshold ≤ env.now - s.lastBlockTime := not_le.mpr hin
    simp only [cycle, hl', if_neg hlt, if_neg hst]

/-- Witness for C7_confirmed: the stalled environment rotates 0 → 1, the
fresh environment leaves the state unchanged. -/
theorem C7_witness :
    cycle envStall sHeld = ⟨sHeld.switchProvider, [], none⟩ ∧
    (cycle envStall sHeld).state.currentProviderIndex = 1 ∧
    cycle envFresh sHeld = ⟨sHeld, [], none⟩ := by
  have h1 := C7_confirmed envStall sHeld 5 rfl rfl rfl (by decide)
  have h2 := C7_confirmed envFresh sHeld 5 rfl rfl rfl (by decide)
  exact ⟨(h1.1 (by decide)).1, (h1.1 (by decide)).2, h2.2 (by decide)⟩

/-! ### The catch-up loop on well-formed block ranges -/

/-- Block number `n` is available from provider `idx` as a well-formed block:
the fetch succeeds, the block carries number `n`, and its transaction list is
non-empty (so `_log_block` does not raise). -/
def GoodBlock (env : Env) (idx : Nat) (n : Int) : Prop :=
  ∃ b, env.blockAt idx n = .ok (some b) ∧ b.number = n ∧ b.transactions ≠ []

theorem intsFrom_last (a : Int) (k : Nat) :
    intsFrom a (k + 1) = intsFrom a k ++ [a + k] := by
  simp [intsFrom, List.range_succ]

theorem intsFrom_succ (a : Int) (k : Nat) :
    intsFrom a (k + 1) = a :: intsFrom (a + 1) k := by
  induction k with
  | zero =>
    rw [show intsFrom a 1 = [a + ((0 : Nat) : Int)] from rfl]
    rw [show intsFrom (a + 1) 0 = [] from rfl]
    norm_num
  | succ k ih =>
    have harg : a + ((k + 1 : Nat) : Int) = a + 1 + k := by push_cast; ring
    rw [intsFrom_last, ih, harg, intsFrom_last]
    rfl

theorem logBlock_ok_of_ne (b : Block) (p : String) (h : b.transactions ≠ []) :
    logBlock b p
      = .ok ⟨b.number, b.timestamp, b.transactions.map Tx.render, p⟩ := by
  unfold logBlock
  rcases htx : b.transactions with _ | ⟨t, ts⟩
  · exact absurd htx h
  · rfl

theorem logBlock_number (b : Block) (p : String) (em : Emitted)
    (h : logBlock b p = .ok em) : em.block_number = b.number := by
  unfold logBlock at h
  rcases htx : b.transactions with _ | ⟨t, ts⟩
  · rw [htx] at h
    simp at h
  · rw [htx] at h
    injection h with h
    rw [← h]

theorem catchUp_ok (env : Env) (idx : Nat) (pname : String) :
    ∀ (fuel : Nat) (n : Int) (s : ServiceState),
      (∀ k : Nat, k < fuel → GoodBlock env idx (n + k)) →
      (catchUp env idx pname fuel n s).emitted.map Emitted.block_number
          = intsFrom n fuel ∧
      (catchUp env idx pname fuel n s).crashed = none ∧
      (catchUp env idx pname fuel n s).state.lastBlock
          = (if fuel = 0 then s.lastBlock else n + fuel - 1) ∧
      (catchUp env idx pname fuel n s).state.currentProviderIndex
          = s.currentProviderIndex := by
  intro fuel
  induction fuel with
  | zero =>
    intro n s h
    exact ⟨rfl, rfl, rfl, rfl⟩
  | succ fuel ih =>
    intro n s h
    obtain ⟨b, hb, hnum, htx⟩ := h 0 (Nat.succ_pos fuel)
    rw [show n + ((0 : Nat) : Int) = n by simp] at hb hnum
    have hlg := logBlock_ok_of_ne b pname htx
    have hpre : ∀ k : Nat, k < fuel → GoodBlock env idx (n + 1 + k) := by
      intro k hk
      have hg := h (k + 1) (Nat.succ_lt_succ hk)
      have harg : n + ((k + 1 : Nat) : Int) = n + 1 + k := by push_cast; ring
      rwa [harg] at hg
    obtain ⟨h1, h2, h3, h4⟩ := ih (n + 1)
      { s with lastBlock := n, lastBlockTime := env.now } hpre
    simp only [catchUp, hb, hlg]
    refine ⟨?_, h2, ?_, h4⟩
    · rw [intsFrom_succ]
      simp only [List.map_cons, h1, hnum]
    · rw [h3]
      have hupd : ({ s with lastBlock := n, lastBlockTime := env.now }
          : ServiceState).lastBlock = n := rfl
      rw [hupd]
      rcases Nat.eq_zero_or_pos fuel with hz | hp
      · subst hz
        simp
      · rw [if_neg (by omega), if_neg (by omega)]
        push_cast
        ring

theorem catchUp_missing (env : Env) (idx : Nat) (pname : String) :
    ∀ (j fuel : Nat) (n : Int) (s : ServiceState),
      j < fuel →
      (∀ k : Nat, k < j → GoodBlock env idx (n + k)) →
      env.blockAt idx (n + j) = .ok none →
      (catchUp env idx pname fuel n s).emitted.map Emitted.block_number
          = intsFrom n j ∧
      (catchUp env idx pname fuel n s).crashed = none ∧
      (catchUp env idx pname fuel n s).state.lastBlock
          = (if j = 0 then s.lastBlock else n + j - 1) ∧
      (catchUp env idx pname fuel n s).state.currentProviderIndex
          = (s.currentProviderIndex + 1) % s.names.length ∧
      (catchUp env idx pname fuel n s).state.names = s.names := by
  intro j
  induction j with
  | zero =>
    intro fuel n s hj hpre hmiss
    rcases fuel with _ | fuel
    · omega
    · rw [show n + ((0 : Nat) : Int) = n by simp] at hmiss
      simp only [catchUp, hmiss]
      refine ⟨?_, ?_, ?_, ?_, ?_⟩ <;> trivial
  | succ j ih =>
    intro fuel n s hj hpre hmiss
    rcases fuel with _ | fuel
    · omega
    · obtain ⟨b, hb, hnum, htx⟩ := hpre 0 (Nat.succ_pos j)
      rw [show n + ((0 : Nat) : Int) = n by simp] at hb hnum
      have hlg := logBlock_ok_of_ne b pname htx
      have hpre2 : ∀ k : Nat, k < j → GoodBlock env idx (n + 1 + k) := by
        intro k hk
        have hg := hpre (k + 1) (Nat.succ_lt_succ hk)
        have harg : n + ((k + 1 : Nat) : Int) = n + 1 + k := by push_cast; ring
        rwa [harg] at hg
      have hmiss2 : env.blockAt idx (n + 1 + j) = .ok none := by
        have harg : n + ((j + 1 : Nat) : Int) = n + 1 + j := by push_cast; ring
        rwa [harg] at hmiss
      obtain ⟨h1, h2, h3, h4, h5⟩ := ih fuel (n + 1)
        { s with lastBlock := n, lastBlockTime := env.now } (by omega) hpre2 hmiss2
      simp only [catchUp, hb, hlg]
      refine ⟨?_, h2, ?_, h4, h5⟩
      · rw [intsFrom_succ]
        simp only [List.map_cons, h1, hnum]
      · rw [h3]
        have hupd : ({ s with lastBlock := n, lastBlockTime := env.now }
            : ServiceState).lastBlock = n := rfl
        rw [if_neg (Nat.succ_ne_zero j), hupd]
        rcases Nat.eq_zero_or_pos j with hz | hp
        · subst hz
          rw [if_pos rfl]
          push_cast
          ring
        · rw [if_neg (by omega)]
          push_cast
          ring

/-- A well-formed block numbered `n`, as served by the healthy test
providers. -/
def goodBlk (n : Int) : Block := ⟨n, 1000 + n, [Tx.plain "0x1"]⟩

/-- Two providers; blocks 1 and 2 are served, block 3 is reported missing
(`get_block` returns `None`) although the latest block number is 4. -/
def envCatchMiss : Env :=
  ⟨100, fun _ => .ok 4,
   fun _ n => if n = 3 then .ok none else .ok (some (goodBlk n))⟩

/-- A two-provider service with cursor at block 0, active index 0. -/
def sCatch : ServiceState := ⟨["ProviderA", "ProviderB"], 0, 0, 0, 5, 60⟩

/-- Claim C1 counterexample: with the active provider (index 0 of 2)
reporting latest block 4 but returning `None` for block 3, the cycle DOES
rotate the active provider — the index moves from 0 to 1 — contradicting
the claim that a not-found block leaves the active provider in place
(the cursor is left at 2, so block 3 is indeed retried next cycle). -/
theorem C1_counterexample :
    sCatch.currentProviderIndex = 0 ∧
    (cycle envCatchMiss sCatch).state.currentProviderIndex = 1 ∧
    (cycle envCatchMiss sCatch).state.lastBlock = 2 := by
  refine ⟨rfl, ?_, ?_⟩ <;> rfl

/-- Claim C1 (amended): when during catch-up the active provider positively
reports block `last_block + 1 + j` as not found (after `j` well-formed
blocks), the loop logs, ROTATES the active provider via `_switch_provider`,
and stops iterating for the cycle: `last_block` advances only to the blocks
actually emitted (`last_block + j`, never past the missing number), nothing
crashes, and the missing number is retried on the next cycle against the
newly active provider. -/
theorem C1_amended (env : Env) (s : ServiceState) (latest : Int) (j : Nat)
    (hl : env.latest s.currentProviderIndex = .ok latest)
    (hrange : s.lastBlock + j < latest)
    (hpre : ∀ k : Nat, k < j →
      GoodBlock env s.currentProviderIndex (s.lastBlock + 1 + k))
    (hmiss : env.blockAt s.currentProviderIndex (s.lastBlock + 1 + j)
      = .ok none) :
    (cycle env s).state.currentProviderIndex
        = (s.currentProviderIndex + 1) % s.names.length ∧
    (cycle env s).state.lastBlock = s.lastBlock + j ∧
    (cycle env s).state.names = s.names ∧
    (cycle env s).emitted.map Emitted.block_number
        = intsFrom (s.lastBlock + 1) j ∧
    (cycle env s).crashed = none := by
  have hlt : s.lastBlock < latest := by omega
  have hcy : cycle env s = catchUp env s.currentProviderIndex
      (s.names.getD s.currentProviderIndex "Unknown")
      (latest - s.lastBlock).toNat (s.lastBlock + 1) s := by
    simp only [cycle, hl, if_pos hlt]
  have hjf : j < (latest - s.lastBlock).toNat := by omega
  have hmiss2 : env.blockAt s.currentProviderIndex (s.lastBlock + 1 + j)
      = .ok none := hmiss
  obtain ⟨h1, h2, h3, h4, h5⟩ := catchUp_missing env s.currentProviderIndex
    (s.names.getD s.currentProviderIndex "Unknown")
    j (latest - s.lastBlock).toNat (s.lastBlock + 1) s hjf hpre hmiss2
  rw [hcy]
  refine ⟨h4, ?_, h5, h1, h2⟩
  rw [h3]
  rcases Nat.eq_zero_or_pos j with hz | hp
  · subst hz
    simp
  · rw [if_neg (by omega)]
    ring

/-- Witness for C1_amended: the concrete missing-block-3 environment. -/
theorem C1_witness :
    (cycle envCatchMiss sCatch).state.currentProviderIndex
        = (sCatch.currentProviderIndex + 1) % sCatch.names.length ∧
    (cycle envCatchMiss sCatch).state.lastBlock = sCatch.lastBlock + (2 : Nat) ∧
    (cycle envCatchMiss sCatch).state.names = sCatch.names ∧
    (cycle envCatchMiss sCatch).emitted.map Emitted.block_number
        = intsFrom (sCatch.lastBlock + 1) 2 ∧
    (cycle envCatchMiss sCatch).crashed = none := by
  refine C1_amended envCatchMiss sCatch 4 2 rfl (by decide) ?_ rfl
  intro k hk
  interval_cases k
  · exact ⟨goodBlk 1, rfl, by decide, by decide⟩
  · exact ⟨goodBlk 2, rfl, by decide, by decide⟩

/-- A healthy single-provider environment: latest block 3, every block
served well-formed. -/
def envSeq : Env := ⟨100, fun _ => .ok 3, fun _ n => .ok (some (goodBlk n))⟩

/-- A single-provider service with cursor at block 0. -/
def sSeq : ServiceState := ⟨["DummyPrimary"], 0, 0, 50, 5, 60⟩

/-- Claim C6: against a single provider whose latest block number is `latest
≥ 1` and which serves a well-formed block for every number `1..latest`, one
polling cycle starting from cursor 0 emits exactly the block numbers
`1, 2, ..., latest` in increasing order, each exactly once, leaves
`last_block = latest` and does not crash. -/
theorem C6_confirmed (env : Env) (s : ServiceState) (latest : Int)
    (nm : String) (_hnames : s.names = [nm]) (hi : s.currentProviderIndex = 0)
    (hlb : s.lastBlock = 0) (hl : env.latest 0 = .ok latest)
    (hpos : 1 ≤ latest)
    (hbl : ∀ k : Nat, k < latest.toNat → GoodBlock env 0 (1 + k)) :
    (cycle env s).emitted.map Emitted.block_number = intsFrom 1 latest.toNat ∧
    (cycle env s).state.lastBlock = latest ∧
    (cycle env s).crashed = none := by
  have hl' : env.latest s.currentProviderIndex = .ok latest := by
    rw [hi]; exact hl
  have hlt : s.lastBlock < latest := by omega
  have hcy : cycle env s = catchUp env s.currentProviderIndex
      (s.names.getD s.currentProviderIndex "Unknown")
      (latest - s.lastBlock).toNat (s.lastBlock + 1) s := by
    simp only [cycle, hl', if_pos hlt]
  have hbl2 : ∀ k : Nat, k < (latest - s.lastBlock).toNat →
      GoodBlock env s.currentProviderIndex (s.lastBlock + 1 + k) := by
    intro k hk
    have hg := hbl k (by omega)
    have harg : ((1 : Int) + k) = s.lastBlock + 1 + k := by rw [hlb]; ring
    rw [hi]
    rwa [harg] at hg
  obtain ⟨h1, h2, h3, _⟩ := catchUp_ok env s.currentProviderIndex
    (s.names.getD s.currentProviderIndex "Unknown")
    (latest - s.lastBlock).toNat (s.lastBlock + 1) s hbl2
  rw [hcy]
  have hfz : (latest - s.lastBlock).toNat ≠ 0 := by omega
  refine ⟨?_, ?_, h2⟩
  · rw [h1, hlb]
    norm_num
  · rw [h3, if_neg hfz]
    omega

/-- Witness for C6_confirmed: one cycle against the three-block provider. -/
theorem C6_witness :
    (cycle envSeq sSeq).emitted.map Emitted.block_number
        = intsFrom 1 (3 : Int).toNat ∧
    (cycle envSeq sSeq).state.lastBlock = 3 ∧
    (cycle envSeq sSeq).crashed = none :=
  C6_confirmed envSeq sSeq 3 "DummyPrimary" rfl rfl rfl rfl (by decide)
    (fun k _ => ⟨goodBlk (1 + k), rfl, rfl, by simp [goodBlk]⟩)

/-! ### Monotonicity of the cursor and uniqueness of emissions -/

/-- Every block a provider hands back carries the number it was requested
under — the well-formedness assumption under which "block number `n` was
emitted" is meaningful. -/
def WellNumbered (env : Env) : Prop :=
  ∀ (i : Nat) (n : Int) (b : Block), env.blockAt i n = .ok (some b) → b.number = n

theorem catchUp_mono (env : Env) (idx : Nat) (pname : String)
    (hw : WellNumbered env) :
    ∀ (fuel : Nat) (n : Int) (s : ServiceState), s.lastBlock = n - 1 →
      s.lastBlock ≤ (catchUp env idx pname fuel n s).state.lastBlock ∧
      (∀ e ∈ (catchUp env idx pname fuel n s).emitted,
        s.lastBlock < e.block_number ∧
        e.block_number ≤ (catchUp env idx pname fuel n s).state.lastBlock) ∧
      (catchUp env idx pname fuel n s).emitted.Pairwise
        (fun a b => a.block_number < b.block_number) := by
  intro fuel
  induction fuel with
  | zero =>
    intro n s hs
    exact ⟨le_refl _, by simp [catchUp], by simp [catchUp]⟩
  | succ fuel ih =>
    intro n s hs
    rcases hb : env.blockAt idx n with e | ob
    · simp only [catchUp, hb]
      exact ⟨le_refl _, by simp, by simp⟩
    · rcases ob with _ | b
      · simp only [catchUp, hb]
        exact ⟨le_refl _, by simp, by simp⟩
      · rcases hlg : logBlock b pname with e | em
        · simp only [catchUp, hb, hlg]
          exact ⟨le_refl _, by simp, by simp⟩
        · have hem : em.block_number = n := by
            rw [logBlock_number b pname em hlg, hw idx n b hb]
          obtain ⟨ha, hbd, hpw⟩ := ih (n + 1)
            { s with lastBlock := n, lastBlockTime := env.now }
            (show (n : Int) = n + 1 - 1 by ring)
          have ha2 : n ≤ (catchUp env idx pname fuel (n + 1)
              { s with lastBlock := n, lastBlockTime := env.now }).state.lastBlock := ha
          have hbd2 : ∀ e ∈ (catchUp env idx pname fuel (n + 1)
              { s with lastBlock := n, lastBlockTime := env.now }).emitted,
              n < e.block_number ∧
              e.block_number ≤ (catchUp env idx pname fuel (n + 1)
                { s with lastBlock := n, lastBlockTime := env.now }).state.lastBlock :=
            hbd
          simp only [catchUp, hb, hlg]
          refine ⟨by omega, ?_, ?_⟩
          · intro e he
            rcases List.mem_cons.mp he with hh | ht
            · subst hh
              constructor
              · omega
              · rw [hem]; exact ha2
            · exact ⟨by have := (hbd2 e ht).1; omega, (hbd2 e ht).2⟩
          · refine List.pairwise_cons.mpr ⟨?_, hpw⟩
            intro e he
            rw [hem]
            exact (hbd2 e he).1

theorem cycle_mono (env : Env) (s : ServiceState) (hw : WellNumbered env) :
    s.lastBlock ≤ (cycle env s).state.lastBlock ∧
    (∀ e ∈ (cycle env s).emitted,
      s.lastBlock < e.block_number ∧
      e.block_number ≤ (cycle env s).state.lastBlock) ∧
    (cycle env s).emitted.Pairwise
      (fun a b => a.block_number < b.block_number) := by
  rcases hl : env.latest s.currentProviderIndex with e | latest
  · simp only [cycle, hl]
    exact ⟨le_refl _, by simp, by simp⟩
  · by_cases hlt : s.lastBlock < latest
    · simp only [cycle, hl, if_pos hlt]
      exact catchUp_mono env s.currentProviderIndex
        (s.names.getD s.currentProviderIndex "Unknown") hw
        (latest - s.lastBlock).toNat (s.lastBlock + 1) s (by ring)
    · by_cases hst : s.blockDelayThreshold ≤ env.now - s.lastBlockTime
      · simp only [cycle, hl, if_neg hlt, if_pos hst]
        exact ⟨le_refl _, by simp, by simp⟩
      · simp only [cycle, hl, if_neg hlt, if_neg hst]
        exact ⟨le_refl _, by simp, by simp⟩

/-- Claim C8: across any sequence of polling cycles, `last_block` is
monotonically non-decreasing, every emitted block number is strictly above
the `last_block` the sequence started from (no number at or below the
cursor is ever emitted) and at most the final cursor, and the emitted
numbers are pairwise strictly increasing in emission order — so no block
number is ever emitted twice. -/
theorem C8_confirmed (envs : List Env) (s : ServiceState)
    (hw : ∀ env ∈ envs, WellNumbered env) :
    s.lastBlock ≤ (runCycles envs s).state.lastBlock ∧
    (∀ e ∈ (runCycles envs s).emitted,
      s.lastBlock < e.block_number ∧
      e.block_number ≤ (runCycles envs s).state.lastBlock) ∧
    (runCycles envs s).emitted.Pairwise
      (fun a b => a.block_number < b.block_number) := by
  induction envs generalizing s with
  | nil => exact ⟨le_refl _, by simp [runCycles], by simp [runCycles]⟩
  | cons env envs ih =>
    have hw1 : WellNumbered env := hw env (by simp)
    have hwr : ∀ e ∈ envs, WellNumbered e := fun e he => hw e (by simp [he])
    obtain ⟨ha, hbd, hpw⟩ := cycle_mono env s hw1
    rcases hcr : (cycle env s).crashed with _ | e
    · obtain ⟨ha2, hbd2, hpw2⟩ := ih (cycle env s).state hwr
      simp only [runCycles, hcr]
      refine ⟨le_trans ha ha2, ?_, ?_⟩
      · intro e he
        rcases List.mem_append.mp he with hl | hr
        · exact ⟨(hbd e hl).1, le_trans (hbd e hl).2 ha2⟩
        · exact ⟨lt_of_le_of_lt ha (hbd2 e hr).1, (hbd2 e hr).2⟩
      · refine List.pairwise_append.mpr ⟨hpw, hpw2, ?_⟩
        intro a hal b hbl
        exact lt_of_le_of_lt (hbd a hal).2 (hbd2 b hbl).1
    · simp only [runCycles, hcr]
      exact ⟨ha, hbd, hpw⟩

/-- Witness for C8_confirmed: one cycle against the healthy three-block
provider, which is well-numbered. -/
theorem C8_witness :
    sSeq.lastBlock ≤ (runCycles [envSeq] sSeq).state.lastBlock ∧
    (∀ e ∈ (runCycles [envSeq] sSeq).emitted,
      sSeq.lastBlock < e.block_number ∧
      e.block_number ≤ (runCycles [envSeq] sSeq).state.lastBlock) ∧
    (runCycles [envSeq] sSeq).emitted.Pairwise
      (fun a b => a.block_number < b.block_number) := by
  refine C8_confirmed [envSeq] sSeq ?_
  intro env henv
  have he : env = envSeq := by simpa using henv
  subst he
  intro i n b hb
  have hsome : some (goodBlk n) = some b := by
    simpa [envSeq] using hb
  injection hsome with hbb
  rw [← hbb]
  rfl

end BlockStream
